import Mathlib

/-!
Shallow embedding of `src/atpoe/fog_polygon_generator.py` (fallback geometry
path, i.e. the hand-written implementations used when Shapely is absent) and
of `is_point_inside_curve` from `src/atpoe/segment_algorithm.py`.

Coordinates are modelled as exact real numbers (the spec's data model declares
"real-valued coordinates"); Python's `round(x, 2)` is modelled as decimal
rounding half-to-even, `int(x)` as truncation toward zero, `math.hypot` /
`math.cos` / `math.sin` / `math.atan2` / `math.radians` / `math.degrees` as
their exact real counterparts.
-/

namespace Atpoe

open scoped Classical

noncomputable section

/-- A 2-D point, as the Python `Tuple[float, float]`. -/
abbrev Point : Type := ℝ × ℝ

/-- Python's banker's rounding of a real to the nearest integer
(ties go to the even integer), as used by `round(_, 2)`. -/
def pyRoundInt (y : ℝ) : ℤ :=
  if y - ⌊y⌋ < 1/2 then ⌊y⌋
  else if 1/2 < y - ⌊y⌋ then ⌊y⌋ + 1
  else if Even ⌊y⌋ then ⌊y⌋ else ⌊y⌋ + 1

/-- Python `round(x, 2)`: round to two decimal places. -/
def pyRound2 (x : ℝ) : ℝ := (pyRoundInt (x * 100) : ℝ) / 100

/-- Python `int(x)`: truncation toward zero. -/
def pyInt (x : ℝ) : ℤ := if 0 ≤ x then ⌊x⌋ else ⌈x⌉

/-- `math.hypot`. -/
def hypot (x y : ℝ) : ℝ := Real.sqrt (x ^ 2 + y ^ 2)

/-- `math.radians`. -/
def radians (d : ℝ) : ℝ := d * Real.pi / 180

/-- `math.degrees`. -/
def degrees (r : ℝ) : ℝ := r * 180 / Real.pi

/-- `math.atan2 y x`, via the complex argument of `x + i*y`. -/
def atan2 (y x : ℝ) : ℝ := Complex.arg ⟨x, y⟩

/-- The edge pairs traversed by the ray-cast loop of
`is_point_inside_polygon`: `p1` starts at `polygon[0]` and the loop body runs
for `i in range(n + 1)` with `p2 = polygon[i % n]`, so the first processed
pair is the degenerate `(polygon[0], polygon[0])`, followed by the `n` real
edges wrapping last→first. -/
def edgePairs (poly : List Point) : List (Point × Point) :=
  match poly with
  | [] => []
  | p0 :: _ => (p0, p0) :: poly.zip (poly.drop 1 ++ [p0])

/-- One iteration of the ray-cast loop body of `is_point_inside_polygon`
(fallback branch).  In the source, `xinters` is assigned only under
`p1y != p2y`; whenever the outer guard holds, `p1y = p2y` is impossible
(it would need `y > p1y` and `y ≤ p1y`), so the division below is never a
division by zero on a reachable branch. -/
def raycastStep (pt : Point) (inside : Bool) (e : Point × Point) : Bool :=
  let x := pt.1
  let y := pt.2
  let p1x := e.1.1
  let p1y := e.1.2
  let p2x := e.2.1
  let p2y := e.2.2
  if y > min p1y p2y ∧ y ≤ max p1y p2y ∧ x ≤ max p1x p2x then
    if p1x = p2x ∨ x ≤ (y - p1y) * (p2x - p1x) / (p2y - p1y) + p1x then
      !inside
    else inside
  else inside

/-- `is_point_inside_polygon` (fallback ray-casting branch). -/
def is_point_inside_polygon (pt : Point) (poly : List Point) : Bool :=
  (edgePairs poly).foldl (raycastStep pt) false

/-- The `n` edges `(polygon[i], polygon[(i+1) % n])`, as iterated by
`calculate_distance_to_polygon` and `would_segment_cross_polygon`. -/
def cycleEdges (poly : List Point) : List (Point × Point) :=
  poly.zip (poly.drop 1 ++ poly.take 1)

/-- `distance_to_line_segment`.  The projection parameter is clamped to
`[0, 1]` exactly as `max(0, min(1, _))` in the source; for a zero-length
segment the Python code would divide by zero (never reached by the callers on
the polygons of interest), here division by zero yields Lean's junk value. -/
def distance_to_line_segment (pt lineStart lineEnd : Point) : ℝ :=
  let dx := lineEnd.1 - lineStart.1
  let dy := lineEnd.2 - lineStart.2
  let px1 := pt.1 - lineStart.1
  let py1 := pt.2 - lineStart.2
  let t := max 0 (min 1 ((px1 * dx + py1 * dy) / (dx * dx + dy * dy)))
  hypot (pt.1 - (lineStart.1 + t * dx)) (pt.2 - (lineStart.2 + t * dy))

/-- `calculate_distance_to_polygon` (fallback branch): the minimum over the
edges of the point-to-segment distance.  The Python float `inf` seed of the
running minimum is modelled by taking the minimum of the (nonempty) mapped
list; for an empty polygon the result is the junk value `0` where Python
would return `inf`. -/
def calculate_distance_to_polygon (pt : Point) (poly : List Point) : ℝ :=
  (((cycleEdges poly).map fun e => distance_to_line_segment pt e.1 e.2).min?).getD 0

/-- The `ccw` helper inside `segments_intersect`. -/
def ccw (A B C : Point) : Bool :=
  (C.2 - A.2) * (B.1 - A.1) > (B.2 - A.2) * (C.1 - A.1)

/-- `segments_intersect`. -/
def segments_intersect (p1 p2 p3 p4 : Point) : Bool :=
  (ccw p1 p3 p4 ≠ ccw p2 p3 p4) ∧ (ccw p1 p2 p3 ≠ ccw p1 p2 p4)

/-- `would_segment_cross_polygon` (fallback branch). -/
def would_segment_cross_polygon (startPoint endPoint : Point) (poly : List Point) : Bool :=
  (cycleEdges poly).any fun e => segments_intersect startPoint endPoint e.1 e.2

/-- `is_point_inside_curve` from `segment_algorithm.py`: one loop iteration. -/
def curveStep (pt : Point) (inside : Bool) (e : Point × Point) : Bool :=
  let xi := e.1.1
  let yi := e.1.2
  let xj := e.2.1
  let yj := e.2.2
  if ((yi > pt.2) ≠ (yj > pt.2)) ∧ pt.1 < (xj - xi) * (pt.2 - yi) / (yj - yi) + xi then
    !inside
  else inside

/-- `is_point_inside_curve` from `segment_algorithm.py`. -/
def is_point_inside_curve (pt : Point) (curve : List Point) : Bool :=
  if curve.length < 3 then false
  else (cycleEdges curve).foldl (curveStep pt) false

/-- The three acceptance checks applied to every candidate of
`find_next_point`: interior to the reference polygon, segment from the
current point does not cross its boundary, and separation within
`[min_separation, max_separation]`.  (In the source the separation is only
computed after the first two checks succeed; as a boolean this is the same
conjunction.) -/
def fnpCheck (cur : Point) (poly : List Point) (mn mx : ℝ) (cand : Point) : Bool :=
  is_point_inside_polygon cand poly &&
  !would_segment_cross_polygon cur cand poly &&
  (mn ≤ calculate_distance_to_polygon cand poly &&
   calculate_distance_to_polygon cand poly ≤ mx)

/-- The angle adjustments tried by the second phase of `find_next_point`,
in source order `[0, 5, -5, 10, -10, 15, -15]`. -/
def adjList : List ℝ := [0, 5, -5, 10, -10, 15, -15]

/-- The fallback sweep angles of `find_next_point`: every 30° over the
full circle. -/
def sweepList : List ℝ := [0, 30, 60, 90, 120, 150, 180, 210, 240, 270, 300, 330]

/-- `find_next_point`.  Phase 1 continues straight along
`previous_direction` (the raw difference vector, as in the source); phase 2
tries the small angle adjustments, skipping magnitudes above
`max_turn_angle`; phase 3 sweeps every 30°.  Candidates are rounded to two
decimals coordinatewise; the first candidate passing `fnpCheck` is returned.
The `target_separation` parameter `t` is accepted but, as in the source,
never used. -/
def find_next_point (cur : Point) (poly : List Point) (seg t mn mx : ℝ)
    (pd : Option Point) (maxTurn : ℝ) : Option Point :=
  let tryCand : Point → Option Point := fun c => if fnpCheck cur poly mn mx c then some c else none
  let straight : Option Point :=
    match pd with
    | none => none
    | some d => tryCand (pyRound2 (cur.1 + d.1 * seg), pyRound2 (cur.2 + d.2 * seg))
  let adj : Option Point :=
    match pd with
    | none => none
    | some d =>
      let ca := degrees (atan2 d.2 d.1)
      adjList.findSome? fun a =>
        if |a| > maxTurn then none
        else tryCand (pyRound2 (cur.1 + Real.cos (radians (ca + a)) * seg),
                      pyRound2 (cur.2 + Real.sin (radians (ca + a)) * seg))
  let sweep : Option Point :=
    sweepList.findSome? fun θ =>
      tryCand (pyRound2 (cur.1 + Real.cos (radians θ) * seg),
               pyRound2 (cur.2 + Real.sin (radians θ) * seg))
  (straight.orElse fun _ => adj).orElse fun _ => sweep

/-- `should_close_polygon`.  The last point is read only after the length
guard, so the `getD` junk default is never consulted on reachable inputs. -/
def should_close_polygon (pts : List Point) (startPoint : Point) (seg : ℝ) : Bool :=
  if pts.length < 20 then false
  else
    let lastPoint := pts.getLast?.getD (0, 0)
    hypot (lastPoint.1 - startPoint.1) (lastPoint.2 - startPoint.2) ≤ seg * 0.2

/-- The vertex indices sampled by the seed-search loop of
`generate_nested_polygon`: `range(0, n, max(1, n // 20))`. -/
def seedSamples (n : ℕ) : List ℕ :=
  (List.range n).filter fun i => i % max 1 (n / 20) = 0

/-- One sampled seed candidate of `generate_nested_polygon`: the perpendicular
`(-dy, dx)` of the local edge is normalized and the sampled vertex moved by
`target_separation` along it (coordinates rounded to two decimals); a
zero-length edge is skipped (`continue`), a candidate outside the reference
polygon is rejected. -/
def seedCandidate (poly : List Point) (t : ℝ) (i : ℕ) : Option Point :=
  let bp := poly.getD i (0, 0)
  let nb := poly.getD ((i + 1) % poly.length) (0, 0)
  let ix := -(nb.2 - bp.2)
  let iy := nb.1 - bp.1
  let len := hypot ix iy
  if len = 0 then none
  else
    let c : Point := (pyRound2 (bp.1 + ix / len * t), pyRound2 (bp.2 + iy / len * t))
    if is_point_inside_polygon c poly then some c else none

/-- The seed-search phase of `generate_nested_polygon`: first sampled
candidate that tests inside the reference polygon, if any. -/
def seedSearch (poly : List Point) (t : ℝ) : Option Point :=
  (seedSamples poly.length).findSome? (seedCandidate poly t)

/-- `circumference` of the reference polygon as summed in
`generate_nested_polygon`. -/
def circumference (poly : List Point) : ℝ :=
  ((cycleEdges poly).map fun e => hypot (e.1.1 - e.2.1) (e.1.2 - e.2.2)).sum

/-- `actual_max_points = min(max_points, int((circumference / segment_length) * 2))`. -/
def actualMaxPoints (poly : List Point) (seg : ℝ) (maxPoints : ℕ) : ℤ :=
  min (maxPoints : ℤ) (pyInt (circumference poly / seg * 2))

/-- The adaptive angle ladder applied after `stuck_counter` has just been
incremented to `s` (so `s ≥ 1` on every reachable call; the `s = 0` branch
returns the previous angle, mirroring that no assignment happens). -/
def stuckLadder (s : ℕ) (mt : ℝ) : ℝ :=
  if s = 1 then 20
  else if s = 2 then 25
  else if s = 3 then 30
  else if s = 4 then 35
  else if s = 5 then 40
  else if 6 ≤ s then 60
  else mt

/-- Axis-aligned bounding-box area of a point list (the `getD 0` defaults are
never consulted: the caller passes a 30-point window). -/
def bboxArea (pts : List Point) : ℝ :=
  ((((pts.map Prod.fst).max?).getD 0) - (((pts.map Prod.fst).min?).getD 0)) *
  ((((pts.map Prod.snd).max?).getD 0) - (((pts.map Prod.snd).min?).getD 0))

/-- The stuck-detection block at the top of each walk iteration: once the
progress tracker holds at least 30 points, the bounding-box area of the last
30 of them either bumps `stuck_counter` and widens the max turn angle along
the ladder, or resets both to `0` and `15.0`. -/
def updateStuck (stuck : ℕ) (mt : ℝ) (tracker : List Point) : ℕ × ℝ :=
  if 30 ≤ tracker.length then
    let recent := tracker.drop (tracker.length - 30)
    if bboxArea recent < 800 then (stuck + 1, stuckLadder (stuck + 1) mt)
    else (0, 15)
  else (stuck, mt)

/-- The walk loop of `generate_nested_polygon` (`for i in
range(actual_max_points)`), with fuel equal to the iteration cap.  The extra
boolean records whether the loop exited through the closure branch (in the
source this is observable only through debug prints); the point list carried
is exactly `inner_points`. -/
def walkLoopB (poly : List Point) (seg t mn mx : ℝ) (startPoint : Point) :
    ℕ → List Point → Point → Option Point → ℝ → ℕ → List Point → List Point × Bool
  | 0, inner, _, _, _, _, _ => (inner, false)
  | fuel + 1, inner, cur, pd, mt, stuck, tracker =>
    let st := updateStuck stuck mt tracker
    match find_next_point cur poly seg t mn mx pd st.2 with
    | none => (inner, false)
    | some np =>
      let inner' := inner ++ [np]
      let tracker' := tracker ++ [cur]
      let pd' : Option Point := some (np.1 - cur.1, np.2 - cur.2)
      if should_close_polygon inner' startPoint seg then (inner' ++ [startPoint], true)
      else walkLoopB poly seg t mn mx startPoint fuel inner' np pd' mt st.1 tracker'

/-- `generate_nested_polygon`, instrumented with the closure flag of
`walkLoopB`: degenerate reference polygons (< 3 points) and seed-search
failure return the empty list; otherwise the walk starts from the seed with
no direction history, a 15° max turn angle, a zero stuck counter and an
empty progress tracker. -/
def generate_nested_polygonB (poly : List Point) (seg t mn mx : ℝ) (maxPoints : ℕ) :
    List Point × Bool :=
  if poly.length < 3 then ([], false)
  else
    match seedSearch poly t with
    | none => ([], false)
    | some s =>
      walkLoopB poly seg t mn mx s (actualMaxPoints poly seg maxPoints).toNat
        [s] s none 15 0 []

/-- `generate_nested_polygon`: the point list of the instrumented run. -/
def generate_nested_polygon (poly : List Point) (seg t mn mx : ℝ) (maxPoints : ℕ) :
    List Point :=
  (generate_nested_polygonB poly seg t mn mx maxPoints).1

/-- The level loop of `generate_nested_polygons` (`for i in
range(num_polygons)`), with `i` the current level index and the fuel the
number of remaining levels.  Separations are widened by `i *
inter_curve_distance`; the inner call uses the default `max_points = 100`;
a falsy (empty) result breaks the loop, any other result is appended. -/
def nestedLoop (seg t mn mx icd : ℝ) : ℕ → ℕ → List (List Point) → List (List Point)
  | _, 0, polys => polys
  | i, fuel + 1, polys =>
    let prev := polys.getLast?.getD []
    let np := generate_nested_polygon prev seg (t + i * icd) (mn + i * icd) (mx + i * icd) 100
    if np = [] then polys
    else nestedLoop seg t mn mx icd (i + 1) fuel (polys ++ [np])

/-- `generate_nested_polygons`. -/
def generate_nested_polygons (initial : List Point) (numPolygons : ℕ)
    (seg t mn mx icd : ℝ) : List (List Point) :=
  nestedLoop seg t mn mx icd 0 numPolygons [initial]

/-- The candidate point derived from a direction vector: project forward by
`segment_length` and round both coordinates to two decimals. -/
def fnpCandidatePoint (cur : Point) (seg : ℝ) (d : Point) : Point :=
  (pyRound2 (cur.1 + d.1 * seg), pyRound2 (cur.2 + d.2 * seg))

/-- Modelled from the spec's candidate enumeration (for comparison with
`find_next_point`): the full ordered candidate list — straight continuation
(when a previous direction exists), then the small angle adjustments with
magnitudes above the max turn angle removed, then the 30° sweep. -/
def fnpCandidates (cur : Point) (seg : ℝ) (pd : Option Point) (maxTurn : ℝ) : List Point :=
  (match pd with
   | none => []
   | some d => [fnpCandidatePoint cur seg d]) ++
  (match pd with
   | none => []
   | some d =>
     let ca := degrees (atan2 d.2 d.1)
     (adjList.filter fun a => ¬ |a| > maxTurn).map fun a =>
       fnpCandidatePoint cur seg (Real.cos (radians (ca + a)), Real.sin (radians (ca + a)))) ++
  (sweepList.map fun θ =>
    fnpCandidatePoint cur seg (Real.cos (radians θ), Real.sin (radians θ)))

end

/-! ### Helper lemmas about the numeric primitives -/

theorem pyRoundInt_intCast (k : ℤ) : pyRoundInt (k : ℝ) = k := by
  unfold pyRoundInt
  rw [Int.floor_intCast]
  simp only [sub_self]
  norm_num

/-- A real whose hundredfold is an integer is fixed by two-decimal rounding. -/
theorem pyRound2_eq_self {x : ℝ} {k : ℤ} (h : x * 100 = (k : ℝ)) : pyRound2 x = x := by
  have h100 : (100 : ℝ) ≠ 0 := by norm_num
  unfold pyRound2
  rw [h, pyRoundInt_intCast]
  field_simp [← h]

/-- Two-decimal rounding is idempotent: its outputs are its fixed points. -/
theorem pyRound2_idem (x : ℝ) : pyRound2 (pyRound2 x) = pyRound2 x := by
  apply pyRound2_eq_self (k := pyRoundInt (x * 100))
  unfold pyRound2
  field_simp

/-- Evaluation helper for concrete square roots. -/
theorem sqrt_eval {a b : ℝ} (hb : 0 ≤ b) (h : b ^ 2 = a) : Real.sqrt a = b := by
  rw [← h, Real.sqrt_sq hb]

/-! ### Concrete test inputs and evaluations

`P5` is a counterclockwise 100×100 square whose first vertex sits in the
middle of the bottom edge (so the very first seed sample already yields an
interior seed); `CWsq` is the same square listed clockwise; `S4` is a small
counterclockwise square used for the ray-cast tie-break analysis. -/

noncomputable section

def P5 : List Point := [(50, 0), (100, 0), (100, 100), (0, 100), (0, 0)]

def CWsq : List Point := [(0, 0), (0, 100), (100, 100), (100, 0)]

def S4 : List Point := [(0, 0), (10, 0), (10, 10), (0, 10)]

end

theorem pr2_0 : pyRound2 (0 : ℝ) = 0 := pyRound2_eq_self (k := 0) (by norm_num)

theorem pr2_3 : pyRound2 (3 : ℝ) = 3 := pyRound2_eq_self (k := 300) (by norm_num)

theorem pr2_50 : pyRound2 (50 : ℝ) = 50 := pyRound2_eq_self (k := 5000) (by norm_num)

theorem pr2_80 : pyRound2 (80 : ℝ) = 80 := pyRound2_eq_self (k := 8000) (by norm_num)

theorem pr2_100 : pyRound2 (100 : ℝ) = 100 := pyRound2_eq_self (k := 10000) (by norm_num)

theorem pr2_103 : pyRound2 (103 : ℝ) = 103 := pyRound2_eq_self (k := 10300) (by norm_num)

theorem pr2_neg3 : pyRound2 (-3 : ℝ) = -3 := pyRound2_eq_self (k := -300) (by norm_num)

theorem inside_P5_seed : is_point_inside_polygon (50, 3) P5 = true := by
  unfold is_point_inside_polygon P5 edgePairs
  norm_num [raycastStep, List.zip, List.zipWith, List.foldl]

theorem seedCand_P5_0 : seedCandidate P5 3 0 = some (50, 3) := by
  unfold seedCandidate
  norm_num [P5, hypot, sqrt_eval (by norm_num : (0:ℝ) ≤ 50) (by norm_num : (50:ℝ)^2 = 2500),
    pr2_50, pr2_3]
  intro h
  have h' : is_point_inside_polygon (50, 3) P5 = false := h
  rw [inside_P5_seed] at h'
  exact absurd h' (by simp)

theorem seedSamples_P5 : seedSamples P5.length = [0, 1, 2, 3, 4] := by
  have : P5.length = 5 := by simp [P5]
  rw [this]
  decide

theorem seed_P5 : seedSearch P5 3 = some (50, 3) := by
  unfold seedSearch
  rw [seedSamples_P5, List.findSome?_cons, seedCand_P5_0]

theorem circ_P5 : circumference P5 = 400 := by
  unfold circumference cycleEdges
  norm_num [P5, hypot, List.zip, List.zipWith, List.map, List.sum,
    sqrt_eval (by norm_num : (0:ℝ) ≤ 50) (by norm_num : (50:ℝ)^2 = 2500),
    sqrt_eval (by norm_num : (0:ℝ) ≤ 100) (by norm_num : (100:ℝ)^2 = 10000)]

theorem actualMax_P5_30 : actualMaxPoints P5 30 1 = 1 := by
  unfold actualMaxPoints pyInt
  rw [circ_P5]
  have h1 : (0:ℝ) ≤ 400 / 30 * 2 := by norm_num
  rw [if_pos h1]
  have h2 : ⌊(400:ℝ) / 30 * 2⌋ = 26 := by
    rw [Int.floor_eq_iff]
    norm_num
  rw [h2]
  decide

theorem actualMax_P5_900 (mp : ℕ) : actualMaxPoints P5 900 mp = 0 := by
  unfold actualMaxPoints pyInt
  rw [circ_P5]
  have h1 : (0:ℝ) ≤ 400 / 900 * 2 := by norm_num
  rw [if_pos h1]
  have h2 : ⌊(400:ℝ) / 900 * 2⌋ = 0 := by
    rw [Int.floor_eq_iff]
    norm_num
  rw [h2]
  simp

theorem inside_P5_80 : is_point_inside_polygon (80, 3) P5 = true := by
  unfold is_point_inside_polygon P5 edgePairs
  norm_num [raycastStep, List.zip, List.zipWith, List.foldl]

theorem cross_P5_eval : would_segment_cross_polygon (50, 3) (80, 3) P5 = false := by
  unfold would_segment_cross_polygon P5 cycleEdges
  norm_num [segments_intersect, ccw, List.zip, List.zipWith, List.any]

theorem dist_P5_80 : calculate_distance_to_polygon (80, 3) P5 = 3 := by
  have h909 : (3 : ℝ) ≤ Real.sqrt 909 := by
    rw [show (3:ℝ) = Real.sqrt 9 from (sqrt_eval (by norm_num) (by norm_num)).symm]
    exact Real.sqrt_le_sqrt (by norm_num)
  unfold calculate_distance_to_polygon P5 cycleEdges
  norm_num [distance_to_line_segment, hypot, List.zip, List.zipWith, List.map, List.min?,
    List.foldl,
    sqrt_eval (by norm_num : (0:ℝ) ≤ 3) (by norm_num : (3:ℝ)^2 = 9),
    sqrt_eval (by norm_num : (0:ℝ) ≤ 20) (by norm_num : (20:ℝ)^2 = 400),
    sqrt_eval (by norm_num : (0:ℝ) ≤ 97) (by norm_num : (97:ℝ)^2 = 9409),
    sqrt_eval (by norm_num : (0:ℝ) ≤ 80) (by norm_num : (80:ℝ)^2 = 6400),
    min_eq_left h909, min_eq_left, min_eq_right]

theorem fnpCheck_P5_80 : fnpCheck (50, 3) P5 2 4 (80, 3) = true := by
  unfold fnpCheck
  rw [inside_P5_80, cross_P5_eval, dist_P5_80]
  norm_num

theorem fnp_P5_first : find_next_point (50, 3) P5 30 3 2 4 none 15 = some (80, 3) := by
  unfold find_next_point sweepList
  dsimp only
  simp only [Option.orElse]
  rw [List.findSome?_cons]
  norm_num [radians, pr2_80, pr2_3, fnpCheck_P5_80]

theorem genB_P5_run :
    generate_nested_polygonB P5 30 3 2 4 1 = ([(50, 3), (80, 3)], false) := by
  unfold generate_nested_polygonB
  rw [if_neg (by simp [P5])]
  rw [seed_P5]
  rw [actualMax_P5_30]
  show walkLoopB P5 30 3 2 4 (50, 3) 1 [(50, 3)] (50, 3) none 15 0 [] = _
  unfold walkLoopB
  rw [show updateStuck 0 15 [] = (0, 15) by unfold updateStuck; norm_num]
  dsimp only
  rw [fnp_P5_first]
  dsimp only
  simp only [List.singleton_append, List.nil_append]
  rw [show should_close_polygon [(50, 3), (80, 3)] (50, 3) 30 = false by
    unfold should_close_polygon; norm_num]
  simp only [Bool.false_eq_true, if_false]
  unfold walkLoopB
  rfl

theorem gen_P5_run :
    generate_nested_polygon P5 30 3 2 4 1 = [(50, 3), (80, 3)] := by
  unfold generate_nested_polygon
  rw [genB_P5_run]

theorem genB_P5_900 (mn mx : ℝ) :
    generate_nested_polygonB P5 900 3 mn mx 100 = ([(50, 3)], false) := by
  unfold generate_nested_polygonB
  rw [if_neg (by simp [P5])]
  rw [seed_P5]
  rw [actualMax_P5_900]
  simp only [Int.toNat_zero]
  unfold walkLoopB
  rfl

theorem gen_short (poly : List Point) (seg t mn mx : ℝ) (mp : ℕ) (h : poly.length < 3) :
    generate_nested_polygon poly seg t mn mx mp = [] := by
  unfold generate_nested_polygon generate_nested_polygonB
  rw [if_pos h]

theorem gen_P5_900 : generate_nested_polygon P5 900 3 2 4 100 = [(50, 3)] := by
  unfold generate_nested_polygon
  rw [genB_P5_900]

theorem gens_P5_eval : generate_nested_polygons P5 2 900 3 2 4 0 = [P5, [(50, 3)]] := by
  unfold generate_nested_polygons
  show nestedLoop 900 3 2 4 0 0 (1 + 1) [P5] = _
  unfold nestedLoop
  dsimp only
  norm_num [gen_P5_900]
  unfold nestedLoop
  dsimp only
  rw [show (([P5, [((50:ℝ), (3:ℝ))]] : List (List Point)).getLast?.getD []) = [(50, 3)] from rfl]
  rw [gen_short _ _ _ _ _ _ (by norm_num)]
  rw [if_pos rfl]

theorem inside_CW_c0 : is_point_inside_polygon (-3, 0) CWsq = false := by
  unfold is_point_inside_polygon CWsq edgePairs
  norm_num [raycastStep, List.zip, List.zipWith, List.foldl]

theorem inside_CW_c1 : is_point_inside_polygon (0, 103) CWsq = false := by
  unfold is_point_inside_polygon CWsq edgePairs
  norm_num [raycastStep, List.zip, List.zipWith, List.foldl]

theorem inside_CW_c2 : is_point_inside_polygon (103, 100) CWsq = false := by
  unfold is_point_inside_polygon CWsq edgePairs
  norm_num [raycastStep, List.zip, List.zipWith, List.foldl]

theorem inside_CW_c3 : is_point_inside_polygon (100, -3) CWsq = false := by
  unfold is_point_inside_polygon CWsq edgePairs
  norm_num [raycastStep, List.zip, List.zipWith, List.foldl]

theorem inside_CW_other : is_point_inside_polygon (100, 3) CWsq = true := by
  unfold is_point_inside_polygon CWsq edgePairs
  norm_num [raycastStep, List.zip, List.zipWith, List.foldl]

theorem seedCand_CW_0 : seedCandidate CWsq 3 0 = none := by
  unfold seedCandidate
  norm_num [CWsq, hypot, sqrt_eval (by norm_num : (0:ℝ) ≤ 100) (by norm_num : (100:ℝ)^2 = 10000),
    pr2_0, pr2_neg3]
  intro h
  have h' : is_point_inside_polygon (-3, 0) CWsq = true := h
  rw [inside_CW_c0] at h'
  exact absurd h' (by simp)

theorem seedCand_CW_1 : seedCandidate CWsq 3 1 = none := by
  unfold seedCandidate
  norm_num [CWsq, hypot, sqrt_eval (by norm_num : (0:ℝ) ≤ 100) (by norm_num : (100:ℝ)^2 = 10000),
    pr2_0, pr2_103]
  intro h
  have h' : is_point_inside_polygon (0, 103) CWsq = true := h
  rw [inside_CW_c1] at h'
  exact absurd h' (by simp)

theorem seedCand_CW_2 : seedCandidate CWsq 3 2 = none := by
  unfold seedCandidate
  norm_num [CWsq, hypot, sqrt_eval (by norm_num : (0:ℝ) ≤ 100) (by norm_num : (100:ℝ)^2 = 10000),
    pr2_100, pr2_103]
  intro h
  have h' : is_point_inside_polygon (103, 100) CWsq = true := h
  rw [inside_CW_c2] at h'
  exact absurd h' (by simp)

theorem seedCand_CW_3 : seedCandidate CWsq 3 3 = none := by
  unfold seedCandidate
  norm_num [CWsq, hypot, sqrt_eval (by norm_num : (0:ℝ) ≤ 100) (by norm_num : (100:ℝ)^2 = 10000),
    pr2_100, pr2_neg3]
  intro h
  have h' : is_point_inside_polygon (100, -3) CWsq = true := h
  rw [inside_CW_c3] at h'
  exact absurd h' (by simp)

theorem seedSamples_CW : seedSamples CWsq.length = [0, 1, 2, 3] := by
  have : CWsq.length = 4 := by simp [CWsq]
  rw [this]
  decide

theorem seed_CW : seedSearch CWsq 3 = none := by
  unfold seedSearch
  rw [seedSamples_CW]
  rw [List.findSome?_cons, seedCand_CW_0]
  rw [List.findSome?_cons, seedCand_CW_1]
  rw [List.findSome?_cons, seedCand_CW_2]
  rw [List.findSome?_cons, seedCand_CW_3]
  rfl

theorem gen_CW : generate_nested_polygon CWsq 30 3 2 4 100 = [] := by
  unfold generate_nested_polygon generate_nested_polygonB
  rw [if_neg (by simp [CWsq])]
  rw [seed_CW]

theorem inside_S4_top : is_point_inside_polygon (5, 10) S4 = true := by
  unfold is_point_inside_polygon S4 edgePairs
  norm_num [raycastStep, List.zip, List.zipWith, List.foldl]

theorem curve_S4_top : is_point_inside_curve (5, 10) S4 = false := by
  unfold is_point_inside_curve S4 cycleEdges
  norm_num [curveStep, List.zip, List.zipWith, List.foldl]

theorem raycast_upper_toggles :
    raycastStep (5, 10) false ((10, 0), (10, 10)) = true := by
  unfold raycastStep
  norm_num

theorem raycast_lower_silent :
    raycastStep (5, 0) false ((10, 0), (10, 10)) = false := by
  unfold raycastStep
  norm_num

/-! ### Structural lemmas -/

theorem orElse_eq_some' {a : Option Point} {f : Unit → Option Point} {p : Point}
    (h : a.orElse f = some p) : a = some p ∨ f () = some p := by
  cases a with
  | none => exact Or.inr h
  | some q => exact Or.inl h

theorem tryCand_eq_some {cur : Point} {poly : List Point} {mn mx : ℝ} {c p : Point}
    (h : (if fnpCheck cur poly mn mx c = true then some c else none) = some p) :
    fnpCheck cur poly mn mx p = true ∧ p = c := by
  by_cases hc : fnpCheck cur poly mn mx c = true
  · rw [if_pos hc] at h
    injection h with h
    exact ⟨h ▸ hc, h.symm⟩
  · rw [if_neg hc] at h
    exact absurd h (by simp)

/-- Every point returned by `find_next_point` passed the three acceptance
checks, and both its coordinates are outputs of two-decimal rounding. -/
theorem fnp_eq_some_check {cur : Point} {poly : List Point} {seg t mn mx : ℝ}
    {pd : Option Point} {mt : ℝ} {p : Point}
    (h : find_next_point cur poly seg t mn mx pd mt = some p) :
    fnpCheck cur poly mn mx p = true ∧ p.1 = pyRound2 p.1 ∧ p.2 = pyRound2 p.2 := by
  unfold find_next_point at h
  cases pd with
  | none =>
    dsimp only at h
    simp only [Option.orElse] at h
    obtain ⟨θ, -, hθ⟩ := List.exists_of_findSome?_eq_some h
    obtain ⟨hchk, hp⟩ := tryCand_eq_some hθ
    refine ⟨hchk, ?_, ?_⟩
    · rw [hp]; exact (pyRound2_idem _).symm
    · rw [hp]; exact (pyRound2_idem _).symm
  | some d =>
    dsimp only at h
    rcases orElse_eq_some' h with h1 | h1
    · rcases orElse_eq_some' h1 with h2 | h2
      · obtain ⟨hchk, hp⟩ := tryCand_eq_some h2
        refine ⟨hchk, ?_, ?_⟩
        · rw [hp]; exact (pyRound2_idem _).symm
        · rw [hp]; exact (pyRound2_idem _).symm
      · obtain ⟨a, -, ha⟩ := List.exists_of_findSome?_eq_some h2
        by_cases hskip : |a| > mt
        · rw [if_pos hskip] at ha
          exact absurd ha (by simp)
        · rw [if_neg hskip] at ha
          obtain ⟨hchk, hp⟩ := tryCand_eq_some ha
          refine ⟨hchk, ?_, ?_⟩
          · rw [hp]; exact (pyRound2_idem _).symm
          · rw [hp]; exact (pyRound2_idem _).symm
    · obtain ⟨θ, -, hθ⟩ := List.exists_of_findSome?_eq_some h1
      obtain ⟨hchk, hp⟩ := tryCand_eq_some hθ
      refine ⟨hchk, ?_, ?_⟩
      · rw [hp]; exact (pyRound2_idem _).symm
      · rw [hp]; exact (pyRound2_idem _).symm

/-- The separation bounds extracted from a successful acceptance check. -/
theorem fnpCheck_sep {cur : Point} {poly : List Point} {mn mx : ℝ} {p : Point}
    (h : fnpCheck cur poly mn mx p = true) :
    mn ≤ calculate_distance_to_polygon p poly ∧ calculate_distance_to_polygon p poly ≤ mx := by
  unfold fnpCheck at h
  simp only [Bool.and_eq_true, decide_eq_true_eq] at h
  exact h.2

theorem head?_append_left {l l' : List Point} (h : l ≠ []) : (l ++ l').head? = l.head? := by
  cases l with
  | nil => exact absurd rfl h
  | cons a l => rfl

theorem tail_append_left {l l' : List Point} (h : l ≠ []) : (l ++ l').tail = l.tail ++ l' := by
  cases l with
  | nil => exact absurd rfl h
  | cons a l => rfl

/-- The walk result always starts with the points it was seeded with. -/
theorem walk_head (poly : List Point) (seg t mn mx : ℝ) (start : Point) :
    ∀ (fuel : ℕ) (inner : List Point) (cur : Point) (pd : Option Point) (mt : ℝ)
      (stuck : ℕ) (tracker : List Point), inner ≠ [] →
      ((walkLoopB poly seg t mn mx start fuel inner cur pd mt stuck tracker).1).head? =
        inner.head? := by
  intro fuel
  induction fuel with
  | zero => intro inner _ _ _ _ _ _; rfl
  | succ fuel ih =>
    intro inner cur pd mt stuck tracker hne
    unfold walkLoopB
    dsimp only
    cases hfnp : find_next_point cur poly seg t mn mx pd (updateStuck stuck mt tracker).2 with
    | none => rfl
    | some np =>
      dsimp only
      by_cases hcl : should_close_polygon (inner ++ [np]) start seg = true
      · rw [if_pos hcl]
        rw [head?_append_left (by simp), head?_append_left hne]
      · rw [if_neg hcl]
        rw [ih (inner ++ [np]) np _ mt (updateStuck stuck mt tracker).1 (tracker ++ [cur])
          (by simp)]
        rw [head?_append_left hne]

/-- The walk adds at most one point per unit of fuel, plus the closure point. -/
theorem walk_len (poly : List Point) (seg t mn mx : ℝ) (start : Point) :
    ∀ (fuel : ℕ) (inner : List Point) (cur : Point) (pd : Option Point) (mt : ℝ)
      (stuck : ℕ) (tracker : List Point),
      ((walkLoopB poly seg t mn mx start fuel inner cur pd mt stuck tracker).1).length ≤
        inner.length + fuel + 1 := by
  intro fuel
  induction fuel with
  | zero => intro inner _ _ _ _ _; simp [walkLoopB]
  | succ fuel ih =>
    intro inner cur pd mt stuck tracker
    unfold walkLoopB
    dsimp only
    cases hfnp : find_next_point cur poly seg t mn mx pd (updateStuck stuck mt tracker).2 with
    | none => simp; omega
    | some np =>
      dsimp only
      by_cases hcl : should_close_polygon (inner ++ [np]) start seg = true
      · rw [if_pos hcl]
        simp
      · rw [if_neg hcl]
        calc ((walkLoopB poly seg t mn mx start fuel (inner ++ [np]) np _ mt
                (updateStuck stuck mt tracker).1 (tracker ++ [cur])).1).length ≤
              (inner ++ [np]).length + fuel + 1 := ih _ _ _ _ _ _
          _ ≤ inner.length + (fuel + 1) + 1 := by simp; omega

/-- If the walk exits through the closure branch, the final point is the
start point. -/
theorem walk_flag_getLast (poly : List Point) (seg t mn mx : ℝ) (start : Point) :
    ∀ (fuel : ℕ) (inner : List Point) (cur : Point) (pd : Option Point) (mt : ℝ)
      (stuck : ℕ) (tracker : List Point),
      (walkLoopB poly seg t mn mx start fuel inner cur pd mt stuck tracker).2 = true →
      ((walkLoopB poly seg t mn mx start fuel inner cur pd mt stuck tracker).1).getLast? =
        some start := by
  intro fuel
  induction fuel with
  | zero => intro inner _ _ _ _ _ h; exact absurd h (by simp [walkLoopB])
  | succ fuel ih =>
    intro inner cur pd mt stuck tracker h
    unfold walkLoopB at h ⊢
    dsimp only at h ⊢
    cases hfnp : find_next_point cur poly seg t mn mx pd (updateStuck stuck mt tracker).2 with
    | none => rw [hfnp] at h; exact absurd h (by simp)
    | some np =>
      rw [hfnp] at h
      dsimp only at h ⊢
      split_ifs at h ⊢ with hcl
      · simp
      · exact ih _ _ _ _ _ _ h

/-- The points of a walk result subject to the separation invariant:
everything except the seed (head) and, when the walk closed, the final
closure copy of the start point. -/
noncomputable def sepScope (r : List Point × Bool) : List Point :=
  if r.2 = true then r.1.tail.dropLast else r.1.tail

/-- Separation invariant: every point the walk appends beyond its seed
passes the separation-window check; on closure the final copy of the start
point is excluded.  (The carried hypothesis covers the tail of the
accumulated list, i.e. everything but the seed.) -/
theorem walk_sep (poly : List Point) (seg t mn mx : ℝ) (start : Point) :
    ∀ (fuel : ℕ) (inner : List Point) (cur : Point) (pd : Option Point) (mt : ℝ)
      (stuck : ℕ) (tracker : List Point),
      (∀ p ∈ inner.tail, mn ≤ calculate_distance_to_polygon p poly ∧
        calculate_distance_to_polygon p poly ≤ mx) →
      inner ≠ [] →
      ∀ p ∈ sepScope (walkLoopB poly seg t mn mx start fuel inner cur pd mt stuck tracker),
        mn ≤ calculate_distance_to_polygon p poly ∧
          calculate_distance_to_polygon p poly ≤ mx := by
  intro fuel
  induction fuel with
  | zero =>
    intro inner cur pd mt stuck tracker hinv hne
    simp only [walkLoopB, sepScope, Bool.false_eq_true, if_false]
    exact hinv
  | succ fuel ih =>
    intro inner cur pd mt stuck tracker hinv hne
    unfold walkLoopB
    dsimp only
    cases hfnp : find_next_point cur poly seg t mn mx pd (updateStuck stuck mt tracker).2 with
    | none =>
      simp only [sepScope, Bool.false_eq_true, if_false]
      exact hinv
    | some np =>
      have hnp := fnpCheck_sep (fnp_eq_some_check hfnp).1
      have hinv' : ∀ p ∈ (inner ++ [np]).tail,
          mn ≤ calculate_distance_to_polygon p poly ∧
            calculate_distance_to_polygon p poly ≤ mx := by
        rw [tail_append_left hne]
        intro p hp
        rcases List.mem_append.mp hp with hp | hp
        · exact hinv p hp
        · rw [List.mem_singleton.mp hp]; exact hnp
      dsimp only
      by_cases hcl : should_close_polygon (inner ++ [np]) start seg = true
      · rw [if_pos hcl]
        simp only [sepScope, if_pos rfl]
        rw [tail_append_left (by simp : (inner ++ [np] : List Point) ≠ [])]
        rw [List.dropLast_concat]
        exact hinv'
      · rw [if_neg hcl]
        exact ih (inner ++ [np]) np _ mt (updateStuck stuck mt tracker).1 (tracker ++ [cur])
          hinv' (by simp)

/-- Rounding invariant: every point the walk ever holds has two-decimal
coordinates, provided the seeds do. -/
theorem walk_rounded (poly : List Point) (seg t mn mx : ℝ) (start : Point) :
    ∀ (fuel : ℕ) (inner : List Point) (cur : Point) (pd : Option Point) (mt : ℝ)
      (stuck : ℕ) (tracker : List Point),
      (∀ p ∈ inner, p.1 = pyRound2 p.1 ∧ p.2 = pyRound2 p.2) →
      start.1 = pyRound2 start.1 ∧ start.2 = pyRound2 start.2 →
      ∀ p ∈ (walkLoopB poly seg t mn mx start fuel inner cur pd mt stuck tracker).1,
        p.1 = pyRound2 p.1 ∧ p.2 = pyRound2 p.2 := by
  intro fuel
  induction fuel with
  | zero =>
    intro inner cur pd mt stuck tracker hinv hst
    exact hinv
  | succ fuel ih =>
    intro inner cur pd mt stuck tracker hinv hst
    unfold walkLoopB
    dsimp only
    cases hfnp : find_next_point cur poly seg t mn mx pd (updateStuck stuck mt tracker).2 with
    | none => exact hinv
    | some np =>
      have hnp := (fnp_eq_some_check hfnp).2
      have hinv' : ∀ p ∈ inner ++ [np], p.1 = pyRound2 p.1 ∧ p.2 = pyRound2 p.2 := by
        intro p hp
        rcases List.mem_append.mp hp with hp | hp
        · exact hinv p hp
        · rw [List.mem_singleton.mp hp]; exact hnp
      dsimp only
      split_ifs with hcl
      · intro p hp
        rcases List.mem_append.mp hp with hp | hp
        · exact hinv' p hp
        · rw [List.mem_singleton.mp hp]; exact hst
      · exact ih (inner ++ [np]) np _ mt (updateStuck stuck mt tracker).1 (tracker ++ [cur])
          hinv' hst

/-- A successful seed search returns an interior, two-decimal-rounded point. -/
theorem seedSearch_some {poly : List Point} {t : ℝ} {s : Point}
    (h : seedSearch poly t = some s) :
    is_point_inside_polygon s poly = true ∧
      s.1 = pyRound2 s.1 ∧ s.2 = pyRound2 s.2 := by
  obtain ⟨i, -, hi⟩ := List.exists_of_findSome?_eq_some h
  unfold seedCandidate at hi
  dsimp only at hi
  by_cases hz : hypot (-((poly.getD ((i + 1) % poly.length) (0, 0)).2 - (poly.getD i (0, 0)).2))
      ((poly.getD ((i + 1) % poly.length) (0, 0)).1 - (poly.getD i (0, 0)).1) = 0
  · rw [if_pos hz] at hi
    exact absurd hi (by simp)
  · rw [if_neg hz] at hi
    by_cases hin : is_point_inside_polygon
        (pyRound2 ((poly.getD i (0, 0)).1 +
          -((poly.getD ((i + 1) % poly.length) (0, 0)).2 - (poly.getD i (0, 0)).2) /
            hypot (-((poly.getD ((i + 1) % poly.length) (0, 0)).2 - (poly.getD i (0, 0)).2))
              ((poly.getD ((i + 1) % poly.length) (0, 0)).1 - (poly.getD i (0, 0)).1) * t),
         pyRound2 ((poly.getD i (0, 0)).2 +
          ((poly.getD ((i + 1) % poly.length) (0, 0)).1 - (poly.getD i (0, 0)).1) /
            hypot (-((poly.getD ((i + 1) % poly.length) (0, 0)).2 - (poly.getD i (0, 0)).2))
              ((poly.getD ((i + 1) % poly.length) (0, 0)).1 - (poly.getD i (0, 0)).1) * t))
        poly = true
    · rw [if_pos hin] at hi
      injection hi with hi
      subst hi
      exact ⟨hin, (pyRound2_idem _).symm, (pyRound2_idem _).symm⟩
    · rw [if_neg hin] at hi
      exact absurd hi (by simp)

/-- The head of a generated level is the seed (or nothing when the level
fails before walking). -/
theorem gen_head (poly : List Point) (seg t mn mx : ℝ) (mp : ℕ) :
    (generate_nested_polygon poly seg t mn mx mp).head? =
      if poly.length < 3 then none else seedSearch poly t := by
  unfold generate_nested_polygon generate_nested_polygonB
  by_cases hlen : poly.length < 3
  · rw [if_pos hlen, if_pos hlen]
    rfl
  · rw [if_neg hlen, if_neg hlen]
    cases hseed : seedSearch poly t with
    | none => rfl
    | some s =>
      dsimp only
      rw [walk_head poly seg t mn mx s _ [s] s none 15 0 [] (by simp)]
      rfl

/-- A generated level is empty exactly when the reference polygon is
degenerate or the seed search fails. -/
theorem gen_empty_iff (poly : List Point) (seg t mn mx : ℝ) (mp : ℕ) :
    generate_nested_polygon poly seg t mn mx mp = [] ↔
      poly.length < 3 ∨ seedSearch poly t = none := by
  constructor
  · intro h
    by_cases hlen : poly.length < 3
    · exact Or.inl hlen
    · right
      cases hseed : seedSearch poly t with
      | none => rfl
      | some s =>
        have hh := gen_head poly seg t mn mx mp
        rw [h, if_neg hlen, hseed] at hh
        exact absurd hh (by simp)
  · intro h
    unfold generate_nested_polygon generate_nested_polygonB
    rcases h with h | h
    · rw [if_pos h]
    · by_cases hlen : poly.length < 3
      · rw [if_pos hlen]
      · rw [if_neg hlen, h]

/-- Characterization of the closure test. -/
theorem should_close_iff (pts : List Point) (s : Point) (seg : ℝ) :
    should_close_polygon pts s seg = true ↔
      20 ≤ pts.length ∧
        hypot ((pts.getLast?.getD (0, 0)).1 - s.1) ((pts.getLast?.getD (0, 0)).2 - s.2) ≤
          seg * 0.2 := by
  unfold should_close_polygon
  by_cases h : pts.length < 20
  · rw [if_pos h]
    simp only [Bool.false_eq_true, false_iff, not_and]
    intro h20
    omega
  · rw [if_neg h]
    simp only [decide_eq_true_eq]
    constructor
    · intro hd
      exact ⟨by omega, hd⟩
    · intro hd
      exact hd.2

/-- The orchestrator loop only ever extends the accumulated list, appends
only nonempty polygons, and adds at most one polygon per remaining level. -/
theorem nestedLoop_ext (seg t mn mx icd : ℝ) :
    ∀ (fuel i : ℕ) (polys : List (List Point)), ∃ rest : List (List Point),
      nestedLoop seg t mn mx icd i fuel polys = polys ++ rest ∧
        (∀ q ∈ rest, q ≠ []) ∧ rest.length ≤ fuel := by
  intro fuel
  induction fuel with
  | zero =>
    intro i polys
    refine ⟨[], ?_, by simp, by simp⟩
    rw [show nestedLoop seg t mn mx icd i 0 polys = polys from rfl]
    simp
  | succ fuel ih =>
    intro i polys
    unfold nestedLoop
    dsimp only
    by_cases hnp : generate_nested_polygon (polys.getLast?.getD []) seg (t + i * icd)
        (mn + i * icd) (mx + i * icd) 100 = []
    · rw [if_pos hnp]
      exact ⟨[], by simp, by simp, by simp⟩
    · rw [if_neg hnp]
      obtain ⟨rest, h1, h2, h3⟩ := ih (i + 1)
        (polys ++ [generate_nested_polygon (polys.getLast?.getD []) seg (t + i * icd)
          (mn + i * icd) (mx + i * icd) 100])
      refine ⟨generate_nested_polygon (polys.getLast?.getD []) seg (t + i * icd)
          (mn + i * icd) (mx + i * icd) 100 :: rest, ?_, ?_, by simp; omega⟩
      · rw [h1]
        simp
      · intro q hq
        rcases List.mem_cons.mp hq with hq | hq
        · rw [hq]
          exact hnp
        · exact h2 q hq

theorem or_eq_orElse {α : Type} (a : Option α) (f : Unit → Option α) :
    a.orElse f = (a.or (f ())) := by
  cases a <;> rfl

theorem none_orElse' {α : Type} (f : Unit → Option α) : Option.orElse none f = f () := rfl

theorem find?_map_eq_findSome? {α β : Type} (g : α → β) (p : β → Bool) (l : List α) :
    (l.map g).find? p = l.findSome? fun a => if p (g a) = true then some (g a) else none := by
  induction l with
  | nil => rfl
  | cons a l ih =>
    rw [List.map_cons, List.find?_cons, List.findSome?_cons]
    cases hpa : p (g a)
    · simp [hpa, ih]
    · simp [hpa]

theorem findSome?_skip {α β : Type} (c : α → Prop) (f : α → Option β) (l : List α) :
    (l.findSome? fun a => if c a then none else f a) =
      (l.filter fun a => ¬ c a).findSome? f := by
  induction l with
  | nil => rfl
  | cons a l ih =>
    rw [List.findSome?_cons, List.filter_cons]
    by_cases h : c a
    · rw [if_pos h]
      rw [if_neg (by simpa using h)]
      exact ih
    · rw [if_neg h]
      rw [if_pos (by simpa using h)]
      rw [List.findSome?_cons]
      cases f a
      · exact ih
      · rfl

theorem find?_cons_eq {α : Type} (p : α → Bool) (a : α) (l : List α) :
    (a :: l).find? p = if p a = true then some a else l.find? p := by
  cases h : p a <;> simp [List.find?_cons, h]

/-- `find_next_point` is the first-success search over the spec's ordered
candidate list, under the three acceptance checks. -/
theorem fnp_eq_find? (cur : Point) (poly : List Point) (seg t mn mx : ℝ)
    (pd : Option Point) (mt : ℝ) :
    find_next_point cur poly seg t mn mx pd mt =
      (fnpCandidates cur seg pd mt).find? (fnpCheck cur poly mn mx) := by
  cases pd with
  | none =>
    unfold find_next_point fnpCandidates fnpCandidatePoint
    dsimp only
    simp only [Option.orElse, List.nil_append]
    rw [find?_map_eq_findSome?]
  | some d =>
    unfold find_next_point fnpCandidates fnpCandidatePoint
    dsimp only
    rw [List.singleton_append, List.cons_append, find?_cons_eq]
    by_cases h0 : fnpCheck cur poly mn mx
        (pyRound2 (cur.1 + d.1 * seg), pyRound2 (cur.2 + d.2 * seg)) = true
    · rw [if_pos h0, if_pos h0]
      rfl
    · rw [if_neg h0, if_neg h0]
      rw [none_orElse']
      rw [or_eq_orElse]
      rw [List.find?_append]
      rw [find?_map_eq_findSome?, find?_map_eq_findSome?]
      rw [← findSome?_skip (fun a => |a| > mt)]

/-- The candidate list examines at most `1 + 7 + 12 = 20` points. -/
theorem fnpCandidates_length (cur : Point) (seg : ℝ) (pd : Option Point) (mt : ℝ) :
    (fnpCandidates cur seg pd mt).length ≤ 20 := by
  cases pd with
  | none => simp [fnpCandidates, sweepList]
  | some d =>
    have h7 : ((adjList.filter fun a => ¬ |a| > mt).length) ≤ 7 := by
      calc (adjList.filter fun a => ¬ |a| > mt).length ≤ adjList.length :=
            List.length_filter_le _ _
        _ = 7 := by simp [adjList]
    simp only [fnpCandidates, List.length_append, List.length_map, List.length_cons,
      List.length_singleton, sweepList]
    simp only [List.length_cons, List.length_nil]
    omega

/-- A horizontal (or zero-length) edge never toggles the fog ray-cast parity. -/
theorem raycastStep_horizontal (pt : Point) (b : Bool) (x1 y1 x2 : ℝ) :
    raycastStep pt b ((x1, y1), (x2, y1)) = b := by
  unfold raycastStep
  dsimp only
  rw [if_neg]
  rintro ⟨h1, h2, -⟩
  rw [min_self] at h1
  rw [max_self] at h2
  exact absurd h2 (not_le.mpr h1)

/-- A horizontal (or zero-length) edge never toggles the curve ray-cast
parity. -/
theorem curveStep_horizontal (pt : Point) (b : Bool) (x1 y1 x2 : ℝ) :
    curveStep pt b ((x1, y1), (x2, y1)) = b := by
  unfold curveStep
  dsimp only
  rw [if_neg]
  rintro ⟨h1, -⟩
  exact h1 rfl

theorem gt_ne_gt_iff (yi yj y : ℝ) :
    ((yi > y) ≠ (yj > y)) ↔ (min yi yj ≤ y ∧ y < max yi yj) := by
  rw [Ne, eq_iff_iff, not_iff, not_lt]
  constructor
  · intro h
    by_cases hy : y < yj
    · exact ⟨min_le_iff.mpr (Or.inl (h.mpr hy)), lt_max_iff.mpr (Or.inr hy)⟩
    · have hyj : yj ≤ y := not_lt.mp hy
      have hyi : y < yi := by
        by_contra hc
        exact hy (h.mp (not_lt.mp hc))
      exact ⟨min_le_iff.mpr (Or.inr hyj), lt_max_iff.mpr (Or.inl hyi)⟩
  · rintro ⟨h1, h2⟩
    rcases le_total yi yj with hc | hc
    · rw [min_eq_left hc] at h1
      rw [max_eq_right hc] at h2
      exact ⟨fun _ => h2, fun _ => h1⟩
    · rw [min_eq_right hc] at h1
      rw [max_eq_left hc] at h2
      constructor
      · intro hyi
        exact absurd hyi (not_le.mpr h2)
      · intro hyj
        exact absurd hyj (not_lt.mpr h1)

/-- The fog ray-cast toggles exactly on the strict-lower / inclusive-upper
window (plus the x-side conditions). -/
theorem raycastStep_toggle_iff (pt : Point) (b : Bool) (e : Point × Point) :
    raycastStep pt b e = !b ↔
      (min e.1.2 e.2.2 < pt.2 ∧ pt.2 ≤ max e.1.2 e.2.2 ∧ pt.1 ≤ max e.1.1 e.2.1 ∧
        (e.1.1 = e.2.1 ∨
          pt.1 ≤ (pt.2 - e.1.2) * (e.2.1 - e.1.1) / (e.2.2 - e.1.2) + e.1.1)) := by
  unfold raycastStep
  dsimp only
  split_ifs with h1 h2
  · obtain ⟨ha, hb, hc⟩ := h1
    simp only [eq_self_iff_true, true_iff]
    exact ⟨ha, hb, hc, h2⟩
  · constructor
    · intro hbb
      exact absurd hbb (by cases b <;> simp)
    · rintro ⟨-, -, -, h4⟩
      exact absurd h4 h2
  · constructor
    · intro hbb
      exact absurd hbb (by cases b <;> simp)
    · rintro ⟨ha, hb, hc, -⟩
      exact absurd ⟨ha, hb, hc⟩ h1

/-- The curve ray-cast toggles exactly on the inclusive-lower / strict-upper
window (plus the strict x condition). -/
theorem curveStep_toggle_iff (pt : Point) (b : Bool) (e : Point × Point) :
    curveStep pt b e = !b ↔
      (min e.1.2 e.2.2 ≤ pt.2 ∧ pt.2 < max e.1.2 e.2.2 ∧
        pt.1 < (e.2.1 - e.1.1) * (pt.2 - e.1.2) / (e.2.2 - e.1.2) + e.1.1) := by
  unfold curveStep
  dsimp only
  split_ifs with h1
  · obtain ⟨ha, hb⟩ := h1
    rw [gt_ne_gt_iff] at ha
    simp only [eq_self_iff_true, true_iff]
    exact ⟨ha.1, ha.2, hb⟩
  · constructor
    · intro hbb
      exact absurd hbb (by cases b <;> simp)
    · rintro ⟨ha, hb, hc⟩
      exact absurd ⟨(gt_ne_gt_iff _ _ _).mpr ⟨ha, hb⟩, hc⟩ h1

theorem circumference_nonneg (poly : List Point) : 0 ≤ circumference poly := by
  unfold circumference
  apply List.sum_nonneg
  intro x hx
  obtain ⟨e, -, he⟩ := List.mem_map.mp hx
  rw [← he]
  exact Real.sqrt_nonneg _

/-- The generated level never exceeds the iteration cap plus seed and
closure point. -/
theorem gen_len_le (poly : List Point) (seg t mn mx : ℝ) (mp : ℕ) :
    (generate_nested_polygon poly seg t mn mx mp).length ≤
      (actualMaxPoints poly seg mp).toNat + 2 := by
  unfold generate_nested_polygon generate_nested_polygonB
  by_cases hlen : poly.length < 3
  · rw [if_pos hlen]
    simp
  · rw [if_neg hlen]
    cases hseed : seedSearch poly t with
    | none => simp
    | some s =>
      dsimp only
      calc ((walkLoopB poly seg t mn mx s (actualMaxPoints poly seg mp).toNat
              [s] s none 15 0 []).1).length ≤
            ([s] : List Point).length + (actualMaxPoints poly seg mp).toNat + 1 :=
          walk_len poly seg t mn mx s _ [s] s none 15 0 []
        _ = (actualMaxPoints poly seg mp).toNat + 2 := by simp; omega

/-- The iteration cap is bounded by `max_points` and by twice the reference
circumference over the segment length. -/
theorem actualMax_le (poly : List Point) (seg : ℝ) (mp : ℕ) (hseg : 0 < seg) :
    ((actualMaxPoints poly seg mp : ℤ) : ℝ) ≤
      min (mp : ℝ) (2 * circumference poly / seg) := by
  unfold actualMaxPoints pyInt
  have hx : (0:ℝ) ≤ circumference poly / seg * 2 :=
    mul_nonneg (div_nonneg (circumference_nonneg poly) hseg.le) (by norm_num)
  rw [if_pos hx]
  rw [Int.cast_min]
  apply min_le_min
  · simp
  · calc ((⌊circumference poly / seg * 2⌋ : ℤ) : ℝ) ≤ circumference poly / seg * 2 :=
        Int.floor_le _
      _ = 2 * circumference poly / seg := by ring

theorem genB_closed_ends {poly : List Point} {seg t mn mx : ℝ} {mp : ℕ}
    (h : (generate_nested_polygonB poly seg t mn mx mp).2 = true) :
    ((generate_nested_polygonB poly seg t mn mx mp).1).head? =
        ((generate_nested_polygonB poly seg t mn mx mp).1).getLast? ∧
      (generate_nested_polygonB poly seg t mn mx mp).1 ≠ [] := by
  unfold generate_nested_polygonB at h ⊢
  by_cases hlen : poly.length < 3
  · rw [if_pos hlen] at h
    exact absurd h (by simp)
  · rw [if_neg hlen] at h ⊢
    cases hseed : seedSearch poly t with
    | none => rw [hseed] at h; exact absurd h (by simp)
    | some strt =>
      rw [hseed] at h
      dsimp only at h ⊢
      have hh := walk_head poly seg t mn mx strt
        (actualMaxPoints poly seg mp).toNat [strt] strt none 15 0 [] (by simp)
      have hl := walk_flag_getLast poly seg t mn mx strt
        (actualMaxPoints poly seg mp).toNat [strt] strt none 15 0 [] h
      constructor
      · rw [hh, hl]
        rfl
      · intro hnil
        rw [hnil] at hh
        exact absurd hh.symm (by simp)

/-! ### Claims -/

/-- C1 (counterexample): on the square `P5` with `segment_length = 30`,
separations `(target, min, max) = (3, 2, 4)` and `max_points = 1`, the walk
reaches its iteration cap without closing (the closure flag is `false`), yet
`generate_nested_polygon` returns the partial points `[(50,3), (80,3)]` —
they are not discarded and the level does emit a (non-closed) point list. -/
theorem c1_failed_walk_cex :
    generate_nested_polygon P5 30 3 2 4 1 = [(50, 3), (80, 3)] ∧
      (generate_nested_polygonB P5 30 3 2 4 1).2 = false ∧
      generate_nested_polygon P5 30 3 2 4 1 ≠ [] := by
  refine ⟨gen_P5_run, by rw [genB_P5_run], ?_⟩
  rw [gen_P5_run]
  simp

/-- C1 (amended): when a level's walk fails mid-generation the partial
points accumulated so far are returned, not discarded — the result always
begins with the seed; only a degenerate reference polygon (< 3 points) or a
failed seed search produce no points at all. -/
theorem c1_failed_walk_amended (poly : List Point) (seg t mn mx : ℝ) (mp : ℕ) :
    (generate_nested_polygon poly seg t mn mx mp).head? =
      if poly.length < 3 then none else seedSearch poly t :=
  gen_head poly seg t mn mx mp

/-- C2 (counterexample): requesting 2 levels on `P5` with
`segment_length = 900` (dynamic cap 0, so level 1's walk fails without
closing — its closure flag is `false`), the orchestrator nevertheless appends
the failed level's partial result `[(50,3)]` and attempts the next level,
returning `[P5, [(50,3)]]` instead of stopping with `[P5]`. -/
theorem c2_stop_rule_cex :
    generate_nested_polygons P5 2 900 3 2 4 0 = [P5, [(50, 3)]] ∧
      (generate_nested_polygonB P5 900 3 2 4 100).2 = false :=
  ⟨gens_P5_eval, by rw [genB_P5_900]⟩

/-- C2 (amended): the orchestrator always returns the input boundary as
level 0 followed by at most `n` generated levels; it stops only when a level
returns an empty list (degenerate reference or seed failure), so every
appended level is nonempty — but a level whose walk merely failed
mid-generation is appended and generation continues. -/
theorem c2_stop_rule_amended (initial : List Point) (n : ℕ) (seg t mn mx icd : ℝ) :
    ∃ rest : List (List Point),
      generate_nested_polygons initial n seg t mn mx icd = initial :: rest ∧
        (∀ q ∈ rest, q ≠ []) ∧ rest.length ≤ n := by
  obtain ⟨rest, h1, h2, h3⟩ := nestedLoop_ext seg t mn mx icd n 0 [initial]
  refine ⟨rest, ?_, h2, h3⟩
  unfold generate_nested_polygons
  rw [h1]
  simp

/-- C2 (witness for the amended claim): concrete instantiation on `P5`. -/
theorem c2_stop_rule_witness :
    ∃ rest : List (List Point),
      generate_nested_polygons P5 2 900 3 2 4 0 = P5 :: rest ∧
        (∀ q ∈ rest, q ≠ []) ∧ rest.length ≤ 2 :=
  c2_stop_rule_amended P5 2 900 3 2 4 0

/-- C3: the closure test fires exactly when at least 20 points have been
accepted and the last accepted point lies within `0.2 × segment_length` of
the level's start point; and every walk that exits through the closure
branch produces a list whose first and last points coincide (both are the
start point, appended verbatim). -/
theorem c3_closure_thm :
    (∀ (pts : List Point) (s : Point) (seg : ℝ),
        should_close_polygon pts s seg = true ↔
          20 ≤ pts.length ∧
            hypot ((pts.getLast?.getD (0, 0)).1 - s.1)
                ((pts.getLast?.getD (0, 0)).2 - s.2) ≤ seg * 0.2) ∧
    (∀ (poly : List Point) (seg t mn mx : ℝ) (mp : ℕ),
        (generate_nested_polygonB poly seg t mn mx mp).2 = false ∨
          (((generate_nested_polygonB poly seg t mn mx mp).1).head? =
              ((generate_nested_polygonB poly seg t mn mx mp).1).getLast? ∧
            (generate_nested_polygonB poly seg t mn mx mp).1 ≠ [] ∧
            (generate_nested_polygonB poly seg t mn mx mp).1 =
              generate_nested_polygon poly seg t mn mx mp)) := by
  refine ⟨should_close_iff, ?_⟩
  intro poly seg t mn mx mp
  cases hflag : (generate_nested_polygonB poly seg t mn mx mp).2 with
  | false => exact Or.inl rfl
  | true =>
    obtain ⟨h1, h2⟩ := genB_closed_ends hflag
    exact Or.inr ⟨h1, h2, rfl⟩

/-- C4: every point of a generated level other than the seed and (for a
closed walk) the final closure copy of the seed has its minimum distance to
the reference polygon, as computed by `calculate_distance_to_polygon`,
inside the closed interval `[min_separation, max_separation]`. -/
theorem c4_separation_thm (poly : List Point) (seg t mn mx : ℝ) (mp : ℕ) :
    List.Forall
      (fun p => mn ≤ calculate_distance_to_polygon p poly ∧
        calculate_distance_to_polygon p poly ≤ mx)
      (sepScope (generate_nested_polygonB poly seg t mn mx mp)) := by
  rw [List.forall_iff_forall_mem]
  unfold generate_nested_polygonB
  by_cases hlen : poly.length < 3
  · rw [if_pos hlen]
    simp [sepScope]
  · rw [if_neg hlen]
    cases hseed : seedSearch poly t with
    | none => simp [sepScope]
    | some strt =>
      dsimp only
      exact walk_sep poly seg t mn mx strt (actualMaxPoints poly seg mp).toNat
        [strt] strt none 15 0 [] (by simp) (by simp)

/-- C4 (witness): on the concrete two-point run over `P5`, the single
non-seed point `(80, 3)` has separation `3 ∈ [2, 4]`. -/
theorem c4_separation_witness :
    List.Forall
      (fun p => (2:ℝ) ≤ calculate_distance_to_polygon p P5 ∧
        calculate_distance_to_polygon p P5 ≤ 4)
      (sepScope (generate_nested_polygonB P5 30 3 2 4 1)) :=
  c4_separation_thm P5 30 3 2 4 1

/-- C5 (counterexample): with `min_separation = 4`, `target_separation = 3`,
`max_separation = 2` the ordering invariant
`min_separation ≤ target_separation ≤ max_separation` is violated, yet
`generate_nested_polygon` performs no validation: it returns the seed point
`[(50, 3)]` as a normal result instead of failing fast with a typed error. -/
theorem c5_validation_cex :
    ¬ ((4:ℝ) ≤ 3 ∧ (3:ℝ) ≤ 2) ∧
      generate_nested_polygon P5 900 3 4 2 100 = [(50, 3)] := by
  constructor
  · rintro ⟨h, -⟩
    norm_num at h
  · unfold generate_nested_polygon
    rw [genB_P5_900 4 2]

/-- C5 (amended): the only input validation `generate_nested_polygon`
performs before walking is that the reference polygon is nonempty with at
least 3 points, in which case it returns the empty list; the separation
ordering and the sign of `segment_length` are never checked. -/
theorem c5_validation_amended (poly : List Point) (seg t mn mx : ℝ) (mp : ℕ)
    (h : poly.length < 3) :
    generate_nested_polygon poly seg t mn mx mp = [] :=
  gen_short poly seg t mn mx mp h

/-- C5 (witness for the amended claim): a one-point reference polygon. -/
theorem c5_validation_witness :
    (([((0:ℝ), (0:ℝ))] : List Point).length < 3) ∧
      generate_nested_polygon [((0:ℝ), (0:ℝ))] 1 1 1 1 5 = [] :=
  ⟨by norm_num, c5_validation_amended [((0:ℝ), (0:ℝ))] 1 1 1 1 5 (by norm_num)⟩

/-- C6 (counterexample): on the clockwise square `CWsq` the seed search
returns absent (and the level fails with an empty result) even though the
candidate obtained from the sampled vertex `(100, 0)` by the *other*
perpendicular rotation `(dy, -dx)` of its local edge — the point `(100, 3)`
— does test inside the polygon.  The code only ever tries the single
rotation `(-dy, dx)`; it does not "test which of the two perpendicular
candidates lands inside", contradicting the claim. -/
theorem c6_seed_normal_cex :
    generate_nested_polygon CWsq 30 3 2 4 100 = [] ∧
      is_point_inside_polygon (100, 3) CWsq = true :=
  ⟨gen_CW, inside_CW_other⟩

/-- C6 (amended): the seed search samples vertices at stride
`max(1, n / 20)` and tries, per sample, only the single perpendicular
`(-dy, dx)` normalized and scaled by `target_separation`; a level emits no
polygon exactly when the reference polygon is degenerate or no sampled
candidate tests interior, and any returned seed does test interior (a level
failure, not a crash). -/
theorem c6_seed_amended (poly : List Point) (seg t mn mx : ℝ) (mp : ℕ) :
    (generate_nested_polygon poly seg t mn mx mp = [] ↔
        poly.length < 3 ∨ seedSearch poly t = none) ∧
      ((seedSearch poly t).all fun s => is_point_inside_polygon s poly) = true := by
  refine ⟨gen_empty_iff poly seg t mn mx mp, ?_⟩
  cases hseed : seedSearch poly t with
  | none => rfl
  | some s => simpa using (seedSearch_some hseed).1

/-- C7: `find_next_point` equals the first-success search over the ordered
candidate list (straight continuation, then `0°, ±5°, ±10°, ±15°`
adjustments filtered by the max turn angle, then the 30° sweep), each
candidate subjected to the same three acceptance checks, and that candidate
list never exceeds `1 + 7 + 12 = 20` entries; in particular the search
returns `none` when all candidates fail. -/
theorem c7_candidate_order_thm (cur : Point) (poly : List Point) (seg t mn mx : ℝ)
    (pd : Option Point) (mt : ℝ) :
    find_next_point cur poly seg t mn mx pd mt =
        (fnpCandidates cur seg pd mt).find? (fnpCheck cur poly mn mx) ∧
      (fnpCandidates cur seg pd mt).length ≤ 20 :=
  ⟨fnp_eq_find? cur poly seg t mn mx pd mt, fnpCandidates_length cur seg pd mt⟩

/-- C8: one level's walk executes at most
`min(max_points, 2 × circumference / segment_length)` iterations — the
result holds `≤ cap + 2` points (seed and closure point included), and the
integer cap is bounded by both `max_points` and
`2 × circumference / segment_length` — so `generate_nested_polygon` always
terminates (it is a total function of its fuel). -/
theorem c8_iteration_cap_thm (poly : List Point) (seg t mn mx : ℝ) (mp : ℕ)
    (hseg : 0 < seg) :
    (generate_nested_polygon poly seg t mn mx mp).length ≤
        (actualMaxPoints poly seg mp).toNat + 2 ∧
      ((actualMaxPoints poly seg mp : ℤ) : ℝ) ≤
        min (mp : ℝ) (2 * circumference poly / seg) :=
  ⟨gen_len_le poly seg t mn mx mp, actualMax_le poly seg mp hseg⟩

/-- C8 (witness): the concrete run over `P5`. -/
theorem c8_iteration_cap_witness :
    (0:ℝ) < 30 ∧
      ((generate_nested_polygon P5 30 3 2 4 1).length ≤
          (actualMaxPoints P5 30 1).toNat + 2 ∧
        ((actualMaxPoints P5 30 1 : ℤ) : ℝ) ≤
          min ((1:ℕ) : ℝ) (2 * circumference P5 / 30)) :=
  ⟨by norm_num, c8_iteration_cap_thm P5 30 3 2 4 1 (by norm_num)⟩

/-- C9 (counterexample): the fog ray-cast `is_point_inside_polygon` treats
the *upper* endpoint of an edge inclusively and the *lower* endpoint
exclusively — the opposite of the claimed tie-break.  On the vertical edge
`(10,0)–(10,10)`, a ray at the upper endpoint's height toggles while a ray
at the lower endpoint's height does not; consequently the boundary point
`(5, 10)` of the square `S4` tests `true` under `is_point_inside_polygon`
but `false` under `is_point_inside_curve` (which does use the claimed
lower-inclusive/upper-exclusive convention), so the two implementations do
not share the claimed convention. -/
theorem c9_tiebreak_cex :
    raycastStep (5, 10) false ((10, 0), (10, 10)) = true ∧
      raycastStep (5, 0) false ((10, 0), (10, 10)) = false ∧
      is_point_inside_polygon (5, 10) S4 = true ∧
      is_point_inside_curve (5, 10) S4 = false :=
  ⟨raycast_upper_toggles, raycast_lower_silent, inside_S4_top, curve_S4_top⟩

/-- C9 (amended): both ray-cast loop bodies leave the parity unchanged on
degenerate edges (zero-length, or horizontal at the test point's height) —
no double-toggle, no failure — and their exact toggle conditions are:
`is_point_inside_polygon` toggles on `min < y ≤ max` (lower endpoint
exclusive, upper inclusive) with `x ≤ max(x1, x2)` and the
vertical-edge-or-intersection test, while `is_point_inside_curve` toggles on
`min ≤ y < max` (lower inclusive, upper exclusive) with a strict
intersection test. -/
theorem c9_tiebreak_amended (pt : Point) (b : Bool) (e : Point × Point)
    (x1 y1 x2 : ℝ) :
    raycastStep pt b ((x1, y1), (x2, y1)) = b ∧
      curveStep pt b ((x1, y1), (x2, y1)) = b ∧
      (raycastStep pt b e = !b ↔
        (min e.1.2 e.2.2 < pt.2 ∧ pt.2 ≤ max e.1.2 e.2.2 ∧
          pt.1 ≤ max e.1.1 e.2.1 ∧
          (e.1.1 = e.2.1 ∨
            pt.1 ≤ (pt.2 - e.1.2) * (e.2.1 - e.1.1) / (e.2.2 - e.1.2) + e.1.1))) ∧
      (curveStep pt b e = !b ↔
        (min e.1.2 e.2.2 ≤ pt.2 ∧ pt.2 < max e.1.2 e.2.2 ∧
          pt.1 < (e.2.1 - e.1.1) * (pt.2 - e.1.2) / (e.2.2 - e.1.2) + e.1.1)) :=
  ⟨raycastStep_horizontal pt b x1 y1 x2, curveStep_horizontal pt b x1 y1 x2,
    raycastStep_toggle_iff pt b e, curveStep_toggle_iff pt b e⟩

/-- C10: every point of every polygon produced by `generate_nested_polygon`
— seed, accepted walk points, and closure point — has both coordinates fixed
by two-decimal rounding. -/
theorem c10_rounded_thm (poly : List Point) (seg t mn mx : ℝ) (mp : ℕ) :
    List.Forall (fun p : Point => p.1 = pyRound2 p.1 ∧ p.2 = pyRound2 p.2)
      (generate_nested_polygon poly seg t mn mx mp) := by
  rw [List.forall_iff_forall_mem]
  unfold generate_nested_polygon generate_nested_polygonB
  by_cases hlen : poly.length < 3
  · rw [if_pos hlen]
    simp
  · rw [if_neg hlen]
    cases hseed : seedSearch poly t with
    | none => simp
    | some strt =>
      dsimp only
      have hs := (seedSearch_some hseed).2
      refine walk_rounded poly seg t mn mx strt (actualMaxPoints poly seg mp).toNat
        [strt] strt none 15 0 [] ?_ hs
      intro p hp
      rw [List.mem_singleton.mp hp]
      exact hs

end Atpoe
